import Mathlib

/-!
Verification of the classification / grouping / template-population engine of
`excel_summary_generator.py` (bh-glx-data repository), as a shallow embedding.

Cell values read from CSV files are modelled by `Value` (strings and integers);
a pandas NaN / missing cell is `Option.none`.  A CSV file on disk is a filename
plus the result of reading it (`none` models a read that raises, caught by the
code's exception handlers).
-/

set_option autoImplicit false

namespace BhGlx

/-- A non-missing cell value: pandas parses CSV cells to strings or numbers. -/
inductive Value where
  | str (s : String)
  | int (n : Int)
  deriving DecidableEq

/-- `str(v)` of Python on a cell value. -/
def Value.pyStr : Value → String
  | .str s => s
  | .int n => toString n

/-- ASCII lowercasing of one character (Python `str.lower` on ASCII data). -/
def asciiLower (c : Char) : Char :=
  if 65 ≤ c.toNat ∧ c.toNat ≤ 90 then Char.ofNat (c.toNat + 32) else c

/-- Python `str.lower()`. -/
def pyLower (s : String) : List Char := s.toList.map asciiLower

/-- Python `str.strip()`: drop whitespace from both ends. -/
def pyStrip (s : String) : String :=
  String.mk (((s.toList.dropWhile Char.isWhitespace).reverse.dropWhile
    Char.isWhitespace).reverse)

/-- A parsed dataframe: header row plus data rows; `none` entries are NaN. -/
structure Table where
  header : List String
  rows : List (List (Option Value))
  deriving DecidableEq

/-- A CSV file: its filename and the outcome of `pd.read_csv` on its body
(`none` when reading raises an exception, which the code always catches). -/
structure CsvFile where
  name : String
  readFull : Option Table
  deriving DecidableEq

/-- `pd.read_csv(path, nrows=1)`: same parse outcome, truncated to one row. -/
def read1 (f : CsvFile) : Option Table :=
  f.readFull.map fun t => ⟨t.header, t.rows.take 1⟩

/-- `df[c].iloc[0]`: locate column `c`, then index row 0.  Outer `none` models
the raised `KeyError`/`IndexError` (absent column, no rows, short row); the
inner `Option` is NaN. -/
def Table.cell0 (t : Table) (c : String) : Option (Option Value) :=
  match t.header.findIdx? (fun h => h == c) with
  | none => none
  | some i =>
    match t.rows.head? with
    | none => none
    | some r => r.get? i

/-! ## Firmware-version extraction (`extract_firmware_version`)

The two `re.search` patterns `erisc_v\d+_\d+_\d+` and `v\d+_\d+_\d+` are
embedded directly.  Because `\d` and `_` are disjoint character classes, the
greedy `\d+_` never backtracks productively, so each pattern is matched by
maximal-munch digit runs; `re.search` tries start positions left to right. -/

/-- Split a character list into its maximal leading digit run and the rest. -/
def splitDigits : List Char → List Char × List Char
  | [] => ([], [])
  | c :: cs =>
    if c.isDigit then
      let p := splitDigits cs
      (c :: p.1, p.2)
    else ([], c :: cs)

/-- Greedy `\d+`: the maximal nonempty digit run at the front, or fail. -/
def matchNum (l : List Char) : Option (List Char × List Char) :=
  if (splitDigits l).1.isEmpty then none else some (splitDigits l)

/-- A literal `_` at the front. -/
def matchUnd : List Char → Option (List Char)
  | [] => none
  | c :: cs => if c = '_' then some cs else none

/-- Match `\d+_\d+_\d+` at the start of `l`, returning the matched characters
(`\d` and `_` are disjoint, so the greedy match never backtracks). -/
def matchTriple (l : List Char) : Option (List Char) :=
  (matchNum l).bind fun p1 =>
  (matchUnd p1.2).bind fun r2 =>
  (matchNum r2).bind fun p2 =>
  (matchUnd p2.2).bind fun r4 =>
  (matchNum r4).map fun p3 =>
  p1.1 ++ ('_' :: (p2.1 ++ ('_' :: p3.1)))

/-- The literal prelude of the specific pattern. -/
def eriscLit : List Char := "erisc_v".toList

/-- Match a literal character list at the front, returning the rest. -/
def dropLit : List Char → List Char → Option (List Char)
  | [], s => some s
  | _ :: _, [] => none
  | c :: cs, x :: xs => if x = c then dropLit cs xs else none

/-- Match `erisc_v\d+_\d+_\d+` at the start of `l`. -/
def matchP1At (l : List Char) : Option (List Char) :=
  (dropLit eriscLit l).bind fun r => (matchTriple r).map fun m => eriscLit ++ m

/-- Match `v\d+_\d+_\d+` at the start of `l`. -/
def matchP2At : List Char → Option (List Char)
  | [] => none
  | c :: r => if c = 'v' then (matchTriple r).map fun m => c :: m else none

/-- `re.search`: try the pattern at each start position, left to right. -/
def searchFrom (mAt : List Char → Option (List Char)) : List Char → Option (List Char)
  | [] => none
  | c :: cs =>
    match mAt (c :: cs) with
    | some m => some m
    | none => searchFrom mAt cs

/-- `extract_firmware_version`: specific pattern first, then the general one,
else `None` (with a warning). -/
def extract_firmware_version (filename : String) : Option String :=
  match searchFrom matchP1At filename.toList with
  | some m => some (String.mk m)
  | none => (searchFrom matchP2At filename.toList).map String.mk

/-! ## Test-kind classification (`identify_test_type`) -/

/-- The two recognized test kinds. -/
inductive TestKind where
  | PRBS
  | DATA
  deriving DecidableEq

/-- The literal `test_type` column value marking a PRBS test. -/
def TEST_TYPE_PRBS : Value := .str "TestType.SERDES_PRBS"

/-- The literal `test_type` column value marking a data test. -/
def TEST_TYPE_DATA : Value := .str "TestType.SIMPLE_PACKET"

/-- Python's `needle in hay` substring test on character lists. -/
def containsSub (needle : List Char) : List Char → Bool
  | [] => needle.isEmpty
  | c :: cs => needle.isPrefixOf (c :: cs) || containsSub needle cs

/-- The filename fallback used by every failure branch of `identify_test_type`:
check for `prbs_test` in the lowercased name first, then `data_test`. -/
def fallbackTestType (name : String) : Option TestKind :=
  if containsSub "prbs_test".toList (pyLower name) then some .PRBS
  else if containsSub "data_test".toList (pyLower name) then some .DATA
  else none

/-- `identify_test_type`: read the first row's `test_type`; absent column,
read failure, row-indexing failure and unrecognized value all fall back to the
filename check. -/
def identify_test_type (f : CsvFile) : Option TestKind :=
  match read1 f with
  | none => fallbackTestType f.name
  | some t =>
    if t.header.contains "test_type" then
      match t.cell0 "test_type" with
      | none => fallbackTestType f.name
      | some v =>
        if v = some TEST_TYPE_PRBS then some .PRBS
        else if v = some TEST_TYPE_DATA then some .DATA
        else fallbackTestType f.name
    else fallbackTestType f.name

/-! ## Hostname extraction (`extract_system_hostname`) -/

/-- `extract_system_hostname`: read the first row's `host`; absent column,
read failure, NaN and the empty string yield `none`; otherwise
`str(hostname).strip()`. -/
def extract_system_hostname (f : CsvFile) : Option String :=
  match read1 f with
  | none => none
  | some t =>
    if t.header.contains "host" then
      match t.cell0 "host" with
      | none => none
      | some none => none
      | some (some v) =>
        if v = Value.str "" then none else some (pyStrip v.pyStr)
    else none

/-! ## Grouper (`group_csvs_by_system_and_firmware`)

The Python `defaultdict` keyed by `(hostname, firmware_version)` with values
`{'PRBS': [...], 'DATA': [...]}` is modelled as an association list in key
insertion order (Python dict order), with unique keys by construction. -/

/-- A bucket: the two per-kind file sequences of one grouping key. -/
structure Bucket where
  prbs : List CsvFile
  data : List CsvFile
  deriving DecidableEq

/-- Append a file to the bucket's sequence for kind `k`. -/
def Bucket.add (b : Bucket) (k : TestKind) (f : CsvFile) : Bucket :=
  match k with
  | .PRBS => { b with prbs := b.prbs ++ [f] }
  | .DATA => { b with data := b.data ++ [f] }

/-- The grouped mapping, in key insertion order. -/
abbrev Grouped := List ((String × String) × Bucket)

/-- `grouped[key][test_type].append(csv_path)` on the association list:
update the (unique) entry for `key`, or append a fresh entry at the end. -/
def insertGrouped : Grouped → String × String → TestKind → CsvFile → Grouped
  | [], key, k, f => [(key, Bucket.add ⟨[], []⟩ k f)]
  | (key', b) :: rest, key, k, f =>
    if key' = key then (key', b.add k f) :: rest
    else (key', b) :: insertGrouped rest key k f

/-- The loop body of the Grouper: classify a file, skip it (with a warning)
when hostname, firmware version or test kind is missing, else insert it. -/
def classifies (f : CsvFile) : Option ((String × String) × TestKind) :=
  (extract_system_hostname f).bind fun h =>
  if h = "" then none else
  (extract_firmware_version f.name).bind fun fw =>
  if fw = "" then none else
  (identify_test_type f).map fun k => ((h, fw), k)

/-- One iteration of the Grouper's `for csv_path in csv_files` loop. -/
def groupStep (g : Grouped) (f : CsvFile) : Grouped :=
  match classifies f with
  | none => g
  | some (key, k) => insertGrouped g key k f

/-- `group_csvs_by_system_and_firmware`. -/
def group_csvs_by_system_and_firmware (files : List CsvFile) : Grouped :=
  files.foldl groupStep []

/-- Dictionary lookup `grouped[key]` on the association-list model. -/
def lookupB : Grouped → String × String → Option Bucket
  | [], _ => none
  | (key', b) :: rest, key => if key' = key then some b else lookupB rest key

/-! ## Compiler (`compile_test_data`) -/

/-- The dataframes that survive the per-file loop: read failures and empty
dataframes are skipped with a warning. -/
def validTables (files : List CsvFile) : List Table :=
  files.filterMap fun f =>
    match f.readFull with
    | none => none
    | some t => if t.rows.isEmpty then none else some t

/-- `pd.concat` column resolution: union in order of first appearance. -/
def unionCols (dfs : List Table) : List String :=
  dfs.foldl (fun acc t => acc ++ t.header.filter (fun h => !acc.contains h)) []

/-- Re-index one row of a table with header `hdr` under the unioned column
list `cols`; columns the row lacks become NaN. -/
def alignRow (hdr cols : List String) (r : List (Option Value)) : List (Option Value) :=
  cols.map fun c =>
    match hdr.findIdx? (fun h => h == c) with
    | some i => (r.get? i).getD none
    | none => none

/-- `pd.concat(dataframes, ignore_index=True)`: stack all rows under the
unioned columns, with a fresh contiguous row index. -/
def concatTables (dfs : List Table) : Table :=
  let cols := unionCols dfs
  ⟨cols, (dfs.map fun t => t.rows.map (alignRow t.header cols)).flatten⟩

/-- `compile_test_data`: `None` on an empty input list or when no file yields
rows, otherwise the concatenation of all surviving dataframes. -/
def compile_test_data (files : List CsvFile) : Option Table :=
  if files.isEmpty then none
  else if (validTables files).isEmpty then none
  else some (concatTables (validTables files))

/-! ## Template Populator (`paste_data_to_sheet`, `generate_excel_summary`)

A workbook is its sheets in order, each sheet a grid of cells; an empty cell
is `none` (openpyxl `cell.value = None`). -/

/-- Sheet contents: rows of cells, `none` = empty cell. -/
abbrev SheetData := List (List (Option Value))

/-- A workbook: named sheets in order. -/
abbrev Workbook := List (String × SheetData)

/-- Designated raw-data sheet for PRBS. -/
def SHEET_RAW_PRBS : String := "raw prbs data"

/-- Designated raw-data sheet for DATA. -/
def SHEET_RAW_DATA : String := "raw data"

/-- The per-cell write of `paste_data_to_sheet`: NaN and `None` are written
as `cell.value = None` (an explicit empty cell); other values are stored
as-is (every modelled `Value` is directly storable). -/
def writeCellValue : Option Value → Option Value
  | none => none
  | some v => some v

/-- The sheet contents after clearing and pasting `df`: header labels coerced
to text on row 1, then the data rows from row 2 on. -/
def pastedSheet (df : Table) : SheetData :=
  (df.header.map fun h => some (Value.str h)) :: df.rows.map fun r => r.map writeCellValue

/-- `paste_data_to_sheet`: `(None, None)` when the sheet is missing, else the
rewritten workbook and `(last_row, last_col) = (len(df) + 1, len(headers))`. -/
def paste_data_to_sheet (wb : Workbook) (sheetName : String) (df : Table) :
    Workbook × Option (Nat × Nat) :=
  if wb.any (fun s => s.1 == sheetName) then
    (wb.map fun s => if s.1 == sheetName then (s.1, pastedSheet df) else s,
     some (df.rows.length + 1, df.header.length))
  else (wb, none)

/-- `df.empty` of pandas: some axis has length 0. -/
def Table.isEmptyDf (t : Table) : Bool := t.rows.isEmpty || t.header.isEmpty

/-- The environment of one `generate_excel_summary` call: the outcome of
loading the template from its fixed path, and whether `workbook.save`
succeeds for this bucket's output path. -/
structure Env where
  template : Option Workbook
  saveOk : Bool
  deriving DecidableEq

/-- `generate_excel_summary`: load the template (failure → `False`), paste
whichever compiled tables are present and non-empty (paste failures only log
a warning), then save (failure → `False`, success → `True`). -/
def generate_excel_summary (env : Env) (_hostname _fw : String)
    (prbsData dataTestData : Option Table) : Bool :=
  match env.template with
  | none => false
  | some wb =>
    let wb1 :=
      match prbsData with
      | some df => if df.isEmptyDf then wb else (paste_data_to_sheet wb SHEET_RAW_PRBS df).1
      | none => wb
    let wb2 :=
      match dataTestData with
      | some df => if df.isEmptyDf then wb1 else (paste_data_to_sheet wb1 SHEET_RAW_DATA df).1
      | none => wb1
    let _saved := wb2
    env.saveOk

/-! ## Report Driver (`main`) -/

/-- The observable outcome of one run: process exit status and the final
success/error tallies printed in the summary. -/
structure RunResult where
  exitCode : Nat
  successCount : Nat
  errorCount : Nat
  deriving DecidableEq

/-- One iteration of the driver's per-bucket loop, threading the
`(success_count, error_count)` pair. -/
def processBucket (env : Env) (acc : Nat × Nat) (entry : (String × String) × Bucket) :
    Nat × Nat :=
  let b := entry.2
  let prbsData := if b.prbs.isEmpty then none else compile_test_data b.prbs
  let dataTestData := if b.data.isEmpty then none else compile_test_data b.data
  if prbsData.isNone && dataTestData.isNone then (acc.1, acc.2 + 1)
  else if generate_excel_summary env entry.1.1 entry.1.2 prbsData dataTestData then
    (acc.1 + 1, acc.2)
  else (acc.1, acc.2 + 1)

/-- The driver's per-bucket loop over the selected buckets, ending the run
with exit status 0 and the final tallies. -/
def runBuckets (env : Env) (g : Grouped) : RunResult :=
  ⟨0, (g.foldl (processBucket env) (0, 0)).1, (g.foldl (processBucket env) (0, 0)).2⟩

/-- The bucket subset selected by the `--systems` filter: `none` models the
run-level "filter matched nothing" termination; an absent flag or an empty
list (falsy in Python) selects everything. -/
def selectedBuckets (grouped : Grouped) (systems : Option (List String)) : Option Grouped :=
  match systems with
  | some sys =>
    if sys.isEmpty then some grouped
    else if (grouped.filter fun kb : (String × String) × Bucket =>
        sys.contains kb.1.1).isEmpty then none
    else some (grouped.filter fun kb : (String × String) × Bucket => sys.contains kb.1.1)
  | none => some grouped

/-- `main`: scan (the found files are a parameter), group, optionally filter
by the `--systems` hostnames, then drive every bucket.  `sys.exit(1)` is
modelled as an early `exitCode = 1` result. -/
def main (env : Env) (files : List CsvFile) (systems : Option (List String)) : RunResult :=
  if files.isEmpty then ⟨1, 0, 0⟩
  else if (group_csvs_by_system_and_firmware files).isEmpty then ⟨1, 0, 0⟩
  else
    match selectedBuckets (group_csvs_by_system_and_firmware files) systems with
    | none => ⟨1, 0, 0⟩
    | some g => runBuckets env g

/-! ## Concrete sample inputs used to exercise the model -/

/-- A PRBS file body: `host` and `test_type` columns, one data row. -/
def tableA : Table :=
  ⟨["host", "test_type"], [[some (Value.str "h1"), some (Value.str "TestType.SERDES_PRBS")]]⟩

/-- A well-formed PRBS file. -/
def fileA : CsvFile := ⟨"SYS1_erisc_v1_7_103_prbs_test.csv", some tableA⟩

/-- A file whose body lacks the `host` column. -/
def fileNoHost : CsvFile :=
  ⟨"x_v1_2_3_data_test.csv", some ⟨["test_type"], [[some (Value.str "TestType.SIMPLE_PACKET")]]⟩⟩

/-- A file body whose `host` value is whitespace only. -/
def tableWs : Table :=
  ⟨["host", "test_type"], [[some (Value.str "  "), some (Value.str "TestType.SERDES_PRBS")]]⟩

/-- A file whose `host` value is whitespace only. -/
def fileWs : CsvFile := ⟨"SYS2_erisc_v1_7_103_prbs_test.csv", some tableWs⟩

/-- An unreadable file whose name carries both test-kind markers. -/
def fileBothMarkers : CsvFile := ⟨"x_prbs_test_data_test.csv", none⟩

/-- A compiled table with one row containing a null cell. -/
def dfSample : Table := ⟨["a", "b"], [[some (Value.int 1), none]]⟩

/-- A template workbook that lacks both designated raw-data sheets. -/
def wbMissingRaw : Workbook := [("PRBS Summary", []), ("DATA Summary", [])]

/-- A template workbook containing the two designated raw-data sheets. -/
def wbWithRaw : Workbook := [("raw prbs data", []), ("raw data", [])]

/-- An environment whose template lacks the raw-data sheets but whose save
succeeds. -/
def envMissingRaw : Env := ⟨some wbMissingRaw, true⟩

/-- An environment where the template fails to load. -/
def envNone : Env := ⟨none, false⟩

/-- The workbook `wbWithRaw` after pasting `dfSample` into its PRBS sheet. -/
def wbPasted : Workbook := [("raw prbs data", pastedSheet dfSample), ("raw data", [])]

/-! ## Specification-side definitions used by the lemmas -/

/-- A nonempty run of digit characters (`\d+`). -/
def digitRun (l : List Char) : Prop := l ≠ [] ∧ ∀ c ∈ l, c.isDigit

instance (l : List Char) : Decidable (digitRun l) :=
  inferInstanceAs (Decidable (l ≠ [] ∧ ∀ c ∈ l, c.isDigit))

/-- `re.search(r"erisc_v\d+_\d+_\d+", s)` succeeds: the literal prelude and
three underscore-separated digit runs occur somewhere in `s`. -/
def specificOccurs (s : List Char) : Prop :=
  ∃ pre d1 d2 d3 post, digitRun d1 ∧ digitRun d2 ∧ digitRun d3 ∧
    s = pre ++ (eriscLit ++ (d1 ++ ('_' :: (d2 ++ ('_' :: (d3 ++ post))))))

/-- `re.search(r"v\d+_\d+_\d+", s)` succeeds. -/
def generalOccurs (s : List Char) : Prop :=
  ∃ pre d1 d2 d3 post, digitRun d1 ∧ digitRun d2 ∧ digitRun d3 ∧
    s = pre ++ ('v' :: (d1 ++ ('_' :: (d2 ++ ('_' :: (d3 ++ post))))))

/-- The files of one kind that classify to one key, in input-scan order. -/
def filterKind (key : String × String) (k : TestKind) (files : List CsvFile) : List CsvFile :=
  files.filter fun f => decide (classifies f = some (key, k))

/-- Extend a bucket by all files of `files` that classify to `key`. -/
def extendBucket (key : String × String) (files : List CsvFile) (b : Bucket) : Bucket :=
  ⟨b.prbs ++ filterKind key TestKind.PRBS files, b.data ++ filterKind key TestKind.DATA files⟩

/-- The grouping key a file classifies to, if any. -/
def classKey (f : CsvFile) : Option (String × String) := (classifies f).map Prod.fst

/-- The bucket the Grouper builds for `key` from scratch: present exactly when
some file classifies to `key`. -/
def freshLookup (key : String × String) (files : List CsvFile) : Option Bucket :=
  if files.any (fun f => decide (classKey f = some key)) then
    some ⟨filterKind key TestKind.PRBS files, filterKind key TestKind.DATA files⟩
  else none

/-- Sheet lookup by name in a workbook. -/
def lookupSheet : Workbook → String → Option SheetData
  | [], _ => none
  | s :: rest, name => if s.1 = name then some s.2 else lookupSheet rest name

/-- The cell at (row `i`, column `j`), 0-based, of a sheet. -/
def getCell (sheet : SheetData) (i j : Nat) : Option (Option Value) :=
  (sheet[i]?).bind fun r => r[j]?

/-! # Lemmas

## The two firmware-version patterns -/

theorem splitDigits_append_eq (l : List Char) :
    (splitDigits l).1 ++ (splitDigits l).2 = l := by
  induction l with
  | nil => rfl
  | cons c cs ih =>
    by_cases h : c.isDigit
    · simp [splitDigits, h, ih]
    · simp [splitDigits, h]

theorem splitDigits_all_digits (l : List Char) : ∀ c ∈ (splitDigits l).1, c.isDigit := by
  induction l with
  | nil => simp [splitDigits]
  | cons c cs ih =>
    by_cases h : c.isDigit
    · simpa [splitDigits, h] using fun x hx => ih x hx
    · simp [splitDigits, h]

theorem splitDigits_head_not_digit (l : List Char) :
    ∀ c cs, (splitDigits l).2 = c :: cs → c.isDigit = false := by
  induction l with
  | nil => simp [splitDigits]
  | cons x xs ih =>
    intro c cs h
    by_cases hx : x.isDigit
    · exact ih c cs (by simpa [splitDigits, hx] using h)
    · simp [splitDigits, hx] at h
      simp [← h.1, hx]

theorem splitDigits_of_append {d r : List Char} (hd : ∀ c ∈ d, c.isDigit)
    (hr : ∀ c cs, r = c :: cs → c.isDigit = false) :
    splitDigits (d ++ r) = (d, r) := by
  induction d with
  | nil =>
    cases r with
    | nil => rfl
    | cons c cs => simp [splitDigits, hr c cs rfl]
  | cons c d' ih =>
    have hc : c.isDigit := hd c (by simp)
    simp [splitDigits, hc, ih (fun x hx => hd x (by simp [hx]))]

theorem matchNum_sound {l : List Char} {d r : List Char} (h : matchNum l = some (d, r)) :
    l = d ++ r ∧ digitRun d ∧ ∀ c cs, r = c :: cs → c.isDigit = false := by
  unfold matchNum at h
  by_cases he : (splitDigits l).1.isEmpty
  · rw [if_pos he] at h
    exact absurd h (by simp)
  · rw [if_neg he] at h
    have hsd : splitDigits l = (d, r) := Option.some.inj h
    have h1 : (splitDigits l).1 = d := by rw [hsd]
    have h2 : (splitDigits l).2 = r := by rw [hsd]
    refine ⟨by rw [← h1, ← h2, splitDigits_append_eq], ⟨?_, ?_⟩, ?_⟩
    · intro hd
      exact he (by simp [h1, hd])
    · intro c hc
      exact splitDigits_all_digits l c (h1 ▸ hc)
    · intro c cs hc
      exact splitDigits_head_not_digit l c cs (h2 ▸ hc)

theorem matchNum_of_append {d r : List Char} (hne : d ≠ []) (hd : ∀ c ∈ d, c.isDigit)
    (hr : ∀ c cs, r = c :: cs → c.isDigit = false) :
    matchNum (d ++ r) = some (d, r) := by
  unfold matchNum
  rw [splitDigits_of_append hd hr]
  simp [hne]

theorem matchNum_isSome_of_head {c : Char} {cs : List Char} (hc : c.isDigit) :
    (matchNum (c :: cs)).isSome := by
  unfold matchNum
  simp [splitDigits, hc]

theorem matchUnd_sound {l r : List Char} (h : matchUnd l = some r) : l = '_' :: r := by
  cases l with
  | nil => simp [matchUnd] at h
  | cons c cs =>
    by_cases hc : c = '_'
    · simp [matchUnd, hc] at h
      simp [hc, h]
    · simp [matchUnd, hc] at h

theorem matchUnd_cons (r : List Char) : matchUnd ('_' :: r) = some r := by
  simp [matchUnd]

theorem underscore_rest (r : List Char) :
    ∀ c cs, ('_' :: r : List Char) = c :: cs → c.isDigit = false := by
  intro c cs h
  injection h with h1 _
  subst h1
  decide

theorem matchTriple_sound {l m : List Char} (h : matchTriple l = some m) :
    ∃ d1 d2 d3 rest, digitRun d1 ∧ digitRun d2 ∧ digitRun d3 ∧
      m = d1 ++ ('_' :: (d2 ++ ('_' :: d3))) ∧ l = m ++ rest := by
  unfold matchTriple at h
  rw [Option.bind_eq_some] at h
  obtain ⟨⟨d1, t1⟩, h1, h⟩ := h
  rw [Option.bind_eq_some] at h
  obtain ⟨r2, h2, h⟩ := h
  rw [Option.bind_eq_some] at h
  obtain ⟨⟨d2, t2⟩, h3, h⟩ := h
  rw [Option.bind_eq_some] at h
  obtain ⟨r4, h4, h⟩ := h
  rw [Option.map_eq_some'] at h
  obtain ⟨⟨d3, t3⟩, h5, hm⟩ := h
  obtain ⟨hl1, hdr1, -⟩ := matchNum_sound h1
  have hr1 : t1 = '_' :: r2 := matchUnd_sound h2
  obtain ⟨hl2, hdr2, -⟩ := matchNum_sound h3
  have hr3 : t2 = '_' :: r4 := matchUnd_sound h4
  obtain ⟨hl3, hdr3, -⟩ := matchNum_sound h5
  refine ⟨d1, d2, d3, t3, hdr1, hdr2, hdr3, hm.symm, ?_⟩
  rw [hl1, hr1, hl2, hr3, hl3, ← hm]
  simp

theorem matchTriple_isSome {d1 d2 d3 post : List Char}
    (h1 : digitRun d1) (h2 : digitRun d2) (h3 : digitRun d3) :
    (matchTriple (d1 ++ ('_' :: (d2 ++ ('_' :: (d3 ++ post)))))).isSome := by
  unfold matchTriple
  rw [matchNum_of_append h1.1 h1.2 (underscore_rest _)]
  simp only [Option.some_bind]
  rw [matchUnd_cons]
  simp only [Option.some_bind]
  rw [matchNum_of_append h2.1 h2.2 (underscore_rest _)]
  simp only [Option.some_bind]
  rw [matchUnd_cons]
  simp only [Option.some_bind]
  obtain ⟨c, cs, hc⟩ : ∃ c cs, d3 = c :: cs := by
    cases d3 with
    | nil => exact absurd rfl h3.1
    | cons c cs => exact ⟨c, cs, rfl⟩
  subst hc
  have hd : c.isDigit := h3.2 c (by simp)
  have hso := @matchNum_isSome_of_head c (cs ++ post) hd
  obtain ⟨p, hp⟩ := Option.isSome_iff_exists.mp hso
  simp [hp]

theorem dropLit_eq_some {lit s r : List Char} : dropLit lit s = some r ↔ s = lit ++ r := by
  induction lit generalizing s with
  | nil => simp [dropLit]
  | cons c cs ih =>
    cases s with
    | nil => simp [dropLit]
    | cons x xs =>
      by_cases hx : x = c
      · simp [dropLit, hx, ih]
      · simp [dropLit, hx]

theorem matchP1At_sound {l m : List Char} (h : matchP1At l = some m) :
    ∃ d1 d2 d3 rest, digitRun d1 ∧ digitRun d2 ∧ digitRun d3 ∧
      m = eriscLit ++ (d1 ++ ('_' :: (d2 ++ ('_' :: d3)))) ∧ l = m ++ rest := by
  unfold matchP1At at h
  rw [Option.bind_eq_some] at h
  obtain ⟨r, hr, h⟩ := h
  rw [Option.map_eq_some'] at h
  obtain ⟨t, ht, hm⟩ := h
  have hs : l = eriscLit ++ r := dropLit_eq_some.mp hr
  obtain ⟨d1, d2, d3, rest, q1, q2, q3, qm, ql⟩ := matchTriple_sound ht
  refine ⟨d1, d2, d3, rest, q1, q2, q3, by rw [← hm, qm], ?_⟩
  rw [hs, ql, ← hm, qm]
  simp

theorem matchP1At_isSome {d1 d2 d3 post : List Char}
    (h1 : digitRun d1) (h2 : digitRun d2) (h3 : digitRun d3) :
    (matchP1At (eriscLit ++ (d1 ++ ('_' :: (d2 ++ ('_' :: (d3 ++ post))))))).isSome := by
  unfold matchP1At
  rw [dropLit_eq_some.mpr rfl]
  simp only [Option.some_bind]
  obtain ⟨t, ht⟩ := Option.isSome_iff_exists.mp (@matchTriple_isSome d1 d2 d3 post h1 h2 h3)
  simp [ht]

theorem matchP2At_sound {l m : List Char} (h : matchP2At l = some m) :
    ∃ d1 d2 d3 rest, digitRun d1 ∧ digitRun d2 ∧ digitRun d3 ∧
      m = 'v' :: (d1 ++ ('_' :: (d2 ++ ('_' :: d3)))) ∧ l = m ++ rest := by
  cases l with
  | nil => simp [matchP2At] at h
  | cons c r =>
    by_cases hc : c = 'v'
    · rw [matchP2At, if_pos hc, Option.map_eq_some'] at h
      obtain ⟨t, ht, hm⟩ := h
      obtain ⟨d1, d2, d3, rest, q1, q2, q3, qm, ql⟩ := matchTriple_sound ht
      refine ⟨d1, d2, d3, rest, q1, q2, q3, by rw [← hm, qm, hc], ?_⟩
      rw [← hm, hc, ql, qm]
      simp
    · rw [matchP2At, if_neg hc] at h
      exact absurd h (by simp)

theorem matchP2At_isSome {d1 d2 d3 post : List Char}
    (h1 : digitRun d1) (h2 : digitRun d2) (h3 : digitRun d3) :
    (matchP2At ('v' :: (d1 ++ ('_' :: (d2 ++ ('_' :: (d3 ++ post))))))).isSome := by
  rw [matchP2At, if_pos rfl]
  obtain ⟨t, ht⟩ := Option.isSome_iff_exists.mp (@matchTriple_isSome d1 d2 d3 post h1 h2 h3)
  simp [ht]

theorem searchFrom_sound {mAt : List Char → Option (List Char)} {s m : List Char}
    (h : searchFrom mAt s = some m) :
    ∃ pre suf, s = pre ++ suf ∧ mAt suf = some m := by
  induction s with
  | nil => simp [searchFrom] at h
  | cons c cs ih =>
    rw [searchFrom] at h
    cases hm : mAt (c :: cs) with
    | some m' =>
      rw [hm] at h
      simp at h
      exact ⟨[], c :: cs, by simp, by rw [hm, h]⟩
    | none =>
      rw [hm] at h
      simp at h
      obtain ⟨pre, suf, hs, hmt⟩ := ih h
      exact ⟨c :: pre, suf, by simp [hs], hmt⟩

theorem searchFrom_isSome {mAt : List Char → Option (List Char)} {suf : List Char}
    (h0 : mAt [] = none) (h : (mAt suf).isSome) :
    ∀ pre, (searchFrom mAt (pre ++ suf)).isSome := by
  intro pre
  induction pre with
  | nil =>
    cases suf with
    | nil => rw [h0] at h; simp at h
    | cons c cs =>
      rw [List.nil_append, searchFrom]
      obtain ⟨m, hm⟩ := Option.isSome_iff_exists.mp h
      rw [hm]
      rfl
  | cons p ps ih =>
    rw [List.cons_append, searchFrom]
    cases hm : mAt (p :: (ps ++ suf)) with
    | some m => rfl
    | none => exact ih

theorem matchP1At_nil : matchP1At [] = none := by decide

theorem matchP2At_nil : matchP2At [] = none := by decide

theorem specific_search_isSome {s : List Char} (h : specificOccurs s) :
    (searchFrom matchP1At s).isSome := by
  obtain ⟨pre, d1, d2, d3, post, q1, q2, q3, hs⟩ := h
  subst hs
  exact searchFrom_isSome matchP1At_nil (matchP1At_isSome q1 q2 q3) pre

theorem general_search_isSome {s : List Char} (h : generalOccurs s) :
    (searchFrom matchP2At s).isSome := by
  obtain ⟨pre, d1, d2, d3, post, q1, q2, q3, hs⟩ := h
  subst hs
  exact searchFrom_isSome matchP2At_nil (matchP2At_isSome q1 q2 q3) pre

theorem search_specific_sound {s m : List Char} (h : searchFrom matchP1At s = some m) :
    specificOccurs s ∧ ∃ d1 d2 d3, digitRun d1 ∧ digitRun d2 ∧ digitRun d3 ∧
      m = eriscLit ++ (d1 ++ ('_' :: (d2 ++ ('_' :: d3)))) := by
  obtain ⟨pre, suf, hs, hm⟩ := searchFrom_sound h
  obtain ⟨d1, d2, d3, rest, q1, q2, q3, qm, ql⟩ := matchP1At_sound hm
  constructor
  · refine ⟨pre, d1, d2, d3, rest, q1, q2, q3, ?_⟩
    rw [hs, ql, qm]
    simp [List.append_assoc]
  · exact ⟨d1, d2, d3, q1, q2, q3, qm⟩

theorem search_general_sound {s m : List Char} (h : searchFrom matchP2At s = some m) :
    generalOccurs s := by
  obtain ⟨pre, suf, hs, hm⟩ := searchFrom_sound h
  obtain ⟨d1, d2, d3, rest, q1, q2, q3, qm, ql⟩ := matchP2At_sound hm
  refine ⟨pre, d1, d2, d3, rest, q1, q2, q3, ?_⟩
  rw [hs, ql, qm]
  simp [List.append_assoc]

/-! ## Grouper characterization

The grouped mapping is characterized exactly: looking up a key yields the
input-order filters of the files classifying to that key, per kind. -/

theorem lookupB_insert_self (g : Grouped) (key : String × String) (k : TestKind) (f : CsvFile) :
    lookupB (insertGrouped g key k f) key =
      some ((match lookupB g key with | some b => b | none => (⟨[], []⟩ : Bucket)).add k f) := by
  induction g with
  | nil => simp [insertGrouped, lookupB]
  | cons e rest ih =>
    obtain ⟨key', b⟩ := e
    by_cases hk : key' = key
    · simp [insertGrouped, lookupB, hk]
    · simp only [insertGrouped, lookupB, if_neg hk]
      exact ih

theorem lookupB_insert_other {key key2 : String × String} (g : Grouped) (k : TestKind)
    (f : CsvFile) (h : key ≠ key2) :
    lookupB (insertGrouped g key2 k f) key = lookupB g key := by
  have hne : ¬ key2 = key := fun hh => h hh.symm
  induction g with
  | nil => simp [insertGrouped, lookupB, hne]
  | cons e rest ih =>
    obtain ⟨key', b⟩ := e
    by_cases hk : key' = key2
    · subst hk
      simp [insertGrouped, lookupB, hne]
    · simp only [insertGrouped, if_neg hk, lookupB]
      by_cases hk2 : key' = key
      · simp [hk2]
      · simp only [if_neg hk2]
        exact ih

theorem filterKind_cons_of_eq {f : CsvFile} {key : String × String} {k : TestKind}
    (h : classifies f = some (key, k)) (fs : List CsvFile) :
    filterKind key k (f :: fs) = f :: filterKind key k fs := by
  simp [filterKind, List.filter_cons, h]

theorem filterKind_cons_of_ne {f : CsvFile} {key : String × String} {k : TestKind}
    (h : classifies f ≠ some (key, k)) (fs : List CsvFile) :
    filterKind key k (f :: fs) = filterKind key k fs := by
  simp [filterKind, List.filter_cons, h]

theorem extendBucket_nil (key : String × String) (b : Bucket) :
    extendBucket key [] b = b := by
  cases b
  simp [extendBucket, filterKind]

theorem extendBucket_cons_hit {f : CsvFile} {key : String × String} {k : TestKind}
    (b : Bucket) (fs : List CsvFile) (h : classifies f = some (key, k)) :
    extendBucket key (f :: fs) b = extendBucket key fs (b.add k f) := by
  cases k with
  | PRBS =>
    have hne : classifies f ≠ some (key, TestKind.DATA) := by simp [h]
    simp [extendBucket, filterKind_cons_of_eq h, filterKind_cons_of_ne hne, Bucket.add]
  | DATA =>
    have hne : classifies f ≠ some (key, TestKind.PRBS) := by simp [h]
    simp [extendBucket, filterKind_cons_of_eq h, filterKind_cons_of_ne hne, Bucket.add]

theorem classifies_ne_of_classKey_ne {f : CsvFile} {key : String × String}
    (h : classKey f ≠ some key) (k : TestKind) : classifies f ≠ some (key, k) := by
  intro hh
  exact h (by simp [classKey, hh])

theorem extendBucket_cons_miss {f : CsvFile} {key : String × String}
    (b : Bucket) (fs : List CsvFile) (h : classKey f ≠ some key) :
    extendBucket key (f :: fs) b = extendBucket key fs b := by
  simp [extendBucket, filterKind_cons_of_ne (classifies_ne_of_classKey_ne h TestKind.PRBS),
    filterKind_cons_of_ne (classifies_ne_of_classKey_ne h TestKind.DATA)]

theorem freshLookup_cons_hit {f : CsvFile} {key : String × String} {k : TestKind}
    (fs : List CsvFile) (h : classifies f = some (key, k)) :
    freshLookup key (f :: fs) = some (extendBucket key (f :: fs) ⟨[], []⟩) := by
  have hk : classKey f = some key := by simp [classKey, h]
  simp [freshLookup, List.any_cons, hk, extendBucket]

theorem freshLookup_cons_miss {f : CsvFile} {key : String × String}
    (fs : List CsvFile) (h : classKey f ≠ some key) :
    freshLookup key (f :: fs) = freshLookup key fs := by
  simp [freshLookup, List.any_cons, h,
    filterKind_cons_of_ne (classifies_ne_of_classKey_ne h TestKind.PRBS),
    filterKind_cons_of_ne (classifies_ne_of_classKey_ne h TestKind.DATA)]

theorem groupStep_of_none {g : Grouped} {f : CsvFile} (h : classifies f = none) :
    groupStep g f = g := by
  simp [groupStep, h]

theorem groupStep_of_some {g : Grouped} {f : CsvFile} {key : String × String} {k : TestKind}
    (h : classifies f = some (key, k)) : groupStep g f = insertGrouped g key k f := by
  simp [groupStep, h]

theorem foldl_lookup (files : List CsvFile) : ∀ (g : Grouped) (key : String × String),
    (∀ b, lookupB g key = some b →
        lookupB (files.foldl groupStep g) key = some (extendBucket key files b)) ∧
    (lookupB g key = none →
        lookupB (files.foldl groupStep g) key = freshLookup key files) := by
  induction files with
  | nil =>
    intro g key
    refine ⟨fun b hb => ?_, fun hn => ?_⟩
    · simpa [extendBucket_nil] using hb
    · simpa [freshLookup] using hn
  | cons f fs ih =>
    intro g key
    rw [List.foldl_cons]
    cases hc : classifies f with
    | none =>
      have hk : classKey f ≠ some key := by simp [classKey, hc]
      rw [groupStep_of_none hc]
      refine ⟨fun b hb => ?_, fun hn => ?_⟩
      · rw [(ih g key).1 b hb, extendBucket_cons_miss b fs hk]
      · rw [(ih g key).2 hn, freshLookup_cons_miss fs hk]
    | some p =>
      obtain ⟨key2, k⟩ := p
      rw [groupStep_of_some hc]
      by_cases hkey : key2 = key
      · subst hkey
        refine ⟨fun b hb => ?_, fun hn => ?_⟩
        · have hins : lookupB (insertGrouped g key2 k f) key2 = some (b.add k f) := by
            rw [lookupB_insert_self, hb]
          rw [(ih (insertGrouped g key2 k f) key2).1 (b.add k f) hins,
            extendBucket_cons_hit b fs hc]
        · have hins : lookupB (insertGrouped g key2 k f) key2 =
              some (Bucket.add ⟨[], []⟩ k f) := by
            rw [lookupB_insert_self, hn]
          rw [(ih (insertGrouped g key2 k f) key2).1 (Bucket.add ⟨[], []⟩ k f) hins,
            freshLookup_cons_hit fs hc, extendBucket_cons_hit ⟨[], []⟩ fs hc]
      · have hne : key ≠ key2 := fun hh => hkey hh.symm
        have hk : classKey f ≠ some key := by
          intro hh
          rw [classKey, hc] at hh
          simp at hh
          exact hkey hh
        refine ⟨fun b hb => ?_, fun hn => ?_⟩
        · have hins : lookupB (insertGrouped g key2 k f) key = some b := by
            rw [lookupB_insert_other g k f hne, hb]
          rw [(ih (insertGrouped g key2 k f) key).1 b hins, extendBucket_cons_miss b fs hk]
        · have hins : lookupB (insertGrouped g key2 k f) key = none := by
            rw [lookupB_insert_other g k f hne, hn]
          rw [(ih (insertGrouped g key2 k f) key).2 hins, freshLookup_cons_miss fs hk]

/-- The full characterization of the Grouper's output under lookup. -/
theorem group_lookup_eq (files : List CsvFile) (key : String × String) :
    lookupB (group_csvs_by_system_and_firmware files) key = freshLookup key files :=
  (foldl_lookup files [] key).2 rfl

/-- Inversion of a successful classification into its three field facts. -/
theorem classifies_inv {f : CsvFile} {key : String × String} {k : TestKind}
    (h : classifies f = some (key, k)) :
    extract_system_hostname f = some key.1 ∧ key.1 ≠ "" ∧
      extract_firmware_version f.name = some key.2 ∧ key.2 ≠ "" ∧
      identify_test_type f = some k := by
  unfold classifies at h
  rw [Option.bind_eq_some] at h
  obtain ⟨hn, hh, h⟩ := h
  by_cases h1 : hn = ""
  · rw [if_pos h1] at h
    exact absurd h (by simp)
  · rw [if_neg h1, Option.bind_eq_some] at h
    obtain ⟨fw, hf, h⟩ := h
    by_cases h2 : fw = ""
    · rw [if_pos h2] at h
      exact absurd h (by simp)
    · rw [if_neg h2, Option.map_eq_some'] at h
      obtain ⟨k', hk, he⟩ := h
      have e1 : hn = key.1 := congrArg (fun x => x.1.1) he
      have e2 : fw = key.2 := congrArg (fun x => x.1.2) he
      have e3 : k' = k := congrArg (fun x => x.2) he
      subst e1
      subst e2
      subst e3
      exact ⟨hh, h1, hf, h2, hk⟩

/-- A file with a missing hostname, firmware version or test kind never
classifies to any key. -/
theorem classifies_eq_none {f : CsvFile}
    (h : extract_system_hostname f = none ∨ extract_firmware_version f.name = none ∨
      identify_test_type f = none ∨ extract_system_hostname f = some "") :
    classifies f = none := by
  cases hc : classifies f with
  | none => rfl
  | some p =>
    obtain ⟨key, k⟩ := p
    obtain ⟨q1, q2, q3, q4, q5⟩ := classifies_inv hc
    rcases h with h | h | h | h
    · rw [h] at q1
      exact absurd q1 (by simp)
    · rw [h] at q3
      exact absurd q3 (by simp)
    · rw [h] at q5
      exact absurd q5 (by simp)
    · rw [h] at q1
      exact absurd (Option.some.inj q1).symm q2

theorem freshLookup_some {key : String × String} {files : List CsvFile} {b : Bucket}
    (h : freshLookup key files = some b) :
    b = ⟨filterKind key TestKind.PRBS files, filterKind key TestKind.DATA files⟩ := by
  unfold freshLookup at h
  by_cases ha : files.any (fun f => decide (classKey f = some key))
  · rw [if_pos ha] at h
    exact (Option.some.inj h).symm
  · rw [if_neg ha] at h
    exact absurd h (by simp)

theorem classifies_of_mem_filterKind {f : CsvFile} {key : String × String} {k : TestKind}
    {files : List CsvFile} (h : f ∈ filterKind key k files) :
    classifies f = some (key, k) :=
  of_decide_eq_true (List.mem_filter.mp h).2

theorem excluded_of_classifies_none {f : CsvFile} (hc : classifies f = none)
    (files : List CsvFile) (key : String × String) (b : Bucket)
    (hb : lookupB (group_csvs_by_system_and_firmware files) key = some b) :
    f ∉ b.prbs ∧ f ∉ b.data := by
  rw [group_lookup_eq] at hb
  have hbb := freshLookup_some hb
  subst hbb
  constructor
  · intro hmem
    have hcl := classifies_of_mem_filterKind hmem
    rw [hc] at hcl
    exact absurd hcl (by simp)
  · intro hmem
    have hcl := classifies_of_mem_filterKind hmem
    rw [hc] at hcl
    exact absurd hcl (by simp)

/-! ## Firmware extraction, assembled -/

theorem extract_some_of_specific {name : String} (h : specificOccurs name.toList) :
    ∃ d1 d2 d3, digitRun d1 ∧ digitRun d2 ∧ digitRun d3 ∧
      extract_firmware_version name =
        some (String.mk (eriscLit ++ (d1 ++ ('_' :: (d2 ++ ('_' :: d3)))))) := by
  obtain ⟨m, hm⟩ := Option.isSome_iff_exists.mp (specific_search_isSome h)
  obtain ⟨-, d1, d2, d3, q1, q2, q3, qm⟩ := search_specific_sound hm
  refine ⟨d1, d2, d3, q1, q2, q3, ?_⟩
  rw [extract_firmware_version, hm, qm]

theorem extract_none_of_no_occurrence {name : String} (h1 : ¬ specificOccurs name.toList)
    (h2 : ¬ generalOccurs name.toList) : extract_firmware_version name = none := by
  cases hs1 : searchFrom matchP1At name.toList with
  | some m => exact absurd (search_specific_sound hs1).1 h1
  | none =>
    cases hs2 : searchFrom matchP2At name.toList with
    | some m => exact absurd (search_general_sound hs2) h2
    | none =>
      rw [extract_firmware_version, hs1, hs2]
      rfl

/-! ## Compiler lemmas -/

theorem concatTables_length (dfs : List Table) :
    (concatTables dfs).rows.length = (dfs.map fun t => t.rows.length).sum := by
  simp [concatTables, Function.comp_def, List.length_map]

theorem compile_eq_some {files : List CsvFile} (h : validTables files ≠ []) :
    compile_test_data files = some (concatTables (validTables files)) := by
  have hf : files ≠ [] := by
    intro hh
    subst hh
    exact h rfl
  unfold compile_test_data
  rw [if_neg (by simp [hf]), if_neg (by simp [h])]

/-! ## Template Populator lemmas -/

theorem lookupSheet_paste {wb : Workbook} {name : String} (df : Table)
    (h : wb.any (fun s => s.1 == name) = true) :
    lookupSheet (wb.map fun s => if s.1 == name then (s.1, pastedSheet df) else s) name =
      some (pastedSheet df) := by
  induction wb with
  | nil => simp at h
  | cons s rest ih =>
    by_cases hs : s.1 = name
    · simp [lookupSheet, hs]
    · have hs' : (s.1 == name) = false := by simp [hs]
      have hr : rest.any (fun s => s.1 == name) = true := by
        simp only [List.any_cons, hs', Bool.false_or] at h
        exact h
      simp only [List.map_cons, hs', Bool.false_eq_true, if_false, lookupSheet, if_neg hs]
      exact ih hr

/-! # Claim theorems -/

/-- C2: whenever the specific pattern `erisc_v\d+_\d+_\d+` matches the
filename, extraction returns a match of the specific pattern (regardless of
the general pattern); when neither pattern matches, extraction returns
absent. -/
theorem firmware_specific_over_general (name : String) :
    (specificOccurs name.toList →
      ∃ d1 d2 d3, digitRun d1 ∧ digitRun d2 ∧ digitRun d3 ∧
        extract_firmware_version name =
          some (String.mk (eriscLit ++ (d1 ++ ('_' :: (d2 ++ ('_' :: d3))))))) ∧
    (¬ specificOccurs name.toList → ¬ generalOccurs name.toList →
      extract_firmware_version name = none) :=
  ⟨fun h => extract_some_of_specific h, fun h1 h2 => extract_none_of_no_occurrence h1 h2⟩

/-- Witness for C2 at the concrete filename `erisc_v1_2_3.csv`. -/
theorem firmware_specific_over_general_witness :
    specificOccurs ("erisc_v1_2_3.csv".toList) ∧
    ∃ d1 d2 d3, digitRun d1 ∧ digitRun d2 ∧ digitRun d3 ∧
      extract_firmware_version "erisc_v1_2_3.csv" =
        some (String.mk (eriscLit ++ (d1 ++ ('_' :: (d2 ++ ('_' :: d3)))))) := by
  have hsp : specificOccurs ("erisc_v1_2_3.csv".toList) :=
    ⟨[], ['1'], ['2'], ['3'], ".csv".toList, by decide, by decide, by decide, by decide⟩
  exact ⟨hsp, (firmware_specific_over_general "erisc_v1_2_3.csv").1 hsp⟩

/-- C7 counterexample: in the dot-delimited form the specific pattern does
not match and extraction fails entirely. -/
theorem firmware_dot_form_counterexample :
    extract_firmware_version "erisc_v1.7.103.csv" = none := by decide

/-- C7 (amended): for every filename containing the literal prefix plus three
underscore-delimited numeric components, the specific pattern matches and
extraction succeeds with a specific-pattern match. -/
theorem firmware_underscore_specific_matches (pre post d1 d2 d3 : List Char)
    (h1 : digitRun d1) (h2 : digitRun d2) (h3 : digitRun d3) :
    ∃ e1 e2 e3, digitRun e1 ∧ digitRun e2 ∧ digitRun e3 ∧
      extract_firmware_version
        (String.mk (pre ++ (eriscLit ++ (d1 ++ ('_' :: (d2 ++ ('_' :: (d3 ++ post)))))))) =
        some (String.mk (eriscLit ++ (e1 ++ ('_' :: (e2 ++ ('_' :: e3)))))) :=
  extract_some_of_specific ⟨pre, d1, d2, d3, post, h1, h2, h3, rfl⟩

/-- Witness for the amended C7 at `SYS1_erisc_v1_7_103.csv`. -/
theorem firmware_underscore_specific_matches_witness :
    digitRun ['1'] ∧
    ∃ e1 e2 e3, digitRun e1 ∧ digitRun e2 ∧ digitRun e3 ∧
      extract_firmware_version
        (String.mk ("SYS1_".toList ++ (eriscLit ++ (['1'] ++ ('_' ::
          (['7'] ++ ('_' :: (['1', '0', '3'] ++ ".csv".toList)))))))) =
        some (String.mk (eriscLit ++ (e1 ++ ('_' :: (e2 ++ ('_' :: e3)))))) :=
  ⟨by decide, firmware_underscore_specific_matches "SYS1_".toList ".csv".toList
    ['1'] ['7'] ['1', '0', '3'] (by decide) (by decide) (by decide)⟩

/-- C3: a file whose classification yields an absent hostname, firmware
version or test kind is excluded from every bucket the Grouper produces. -/
theorem absent_classification_excluded (files : List CsvFile) (f : CsvFile)
    (habs : extract_system_hostname f = none ∨ extract_firmware_version f.name = none ∨
      identify_test_type f = none)
    (key : String × String) (b : Bucket)
    (hb : lookupB (group_csvs_by_system_and_firmware files) key = some b) :
    f ∉ b.prbs ∧ f ∉ b.data := by
  have hc : classifies f = none := classifies_eq_none (by
    rcases habs with h | h | h
    · exact Or.inl h
    · exact Or.inr (Or.inl h)
    · exact Or.inr (Or.inr (Or.inl h)))
  exact excluded_of_classifies_none hc files key b hb

/-- Witness for C3: a file lacking the `host` column is excluded from the
bucket formed by a well-formed companion file. -/
theorem absent_classification_excluded_witness :
    extract_system_hostname fileNoHost = none ∧
    lookupB (group_csvs_by_system_and_firmware [fileA, fileNoHost])
      ("h1", "erisc_v1_7_103") = some ⟨[fileA], []⟩ ∧
    fileNoHost ∉ (Bucket.mk [fileA] []).prbs ∧ fileNoHost ∉ (Bucket.mk [fileA] []).data := by
  have h := absent_classification_excluded [fileA, fileNoHost] fileNoHost
    (Or.inl (by decide)) ("h1", "erisc_v1_7_103") ⟨[fileA], []⟩ (by decide)
  exact ⟨by decide, by decide, h.1, h.2⟩

/-- C8: looking up any bucket of the Grouper's output yields exactly the
input-order filters of the files classifying to that key per kind, and every
file in the bucket classifies to exactly that hostname, firmware version and
kind. -/
theorem grouped_bucket_exact (files : List CsvFile) (key : String × String) (b : Bucket)
    (hb : lookupB (group_csvs_by_system_and_firmware files) key = some b) :
    b.prbs = filterKind key TestKind.PRBS files ∧
    b.data = filterKind key TestKind.DATA files ∧
    (∀ f ∈ b.prbs, extract_system_hostname f = some key.1 ∧
      extract_firmware_version f.name = some key.2 ∧
      identify_test_type f = some TestKind.PRBS) ∧
    (∀ f ∈ b.data, extract_system_hostname f = some key.1 ∧
      extract_firmware_version f.name = some key.2 ∧
      identify_test_type f = some TestKind.DATA) := by
  rw [group_lookup_eq] at hb
  have hbb := freshLookup_some hb
  subst hbb
  refine ⟨rfl, rfl, fun f hf => ?_, fun f hf => ?_⟩
  · obtain ⟨q1, -, q3, -, q5⟩ := classifies_inv (classifies_of_mem_filterKind hf)
    exact ⟨q1, q3, q5⟩
  · obtain ⟨q1, -, q3, -, q5⟩ := classifies_inv (classifies_of_mem_filterKind hf)
    exact ⟨q1, q3, q5⟩

/-- Witness for C8 on a one-file input. -/
theorem grouped_bucket_exact_witness :
    lookupB (group_csvs_by_system_and_firmware [fileA]) ("h1", "erisc_v1_7_103") =
      some ⟨[fileA], []⟩ ∧
    (∀ f ∈ (Bucket.mk [fileA] []).prbs,
      extract_system_hostname f = some "h1" ∧
      extract_firmware_version f.name = some "erisc_v1_7_103" ∧
      identify_test_type f = some TestKind.PRBS) :=
  ⟨by decide, fun f hf =>
    (grouped_bucket_exact [fileA] ("h1", "erisc_v1_7_103") ⟨[fileA], []⟩ (by decide)).2.2.1 f hf⟩

/-- C9: in the filename fallback, the PRBS marker is checked before the DATA
marker, so a name containing both markers yields PRBS in every fallback
branch of test-kind classification. -/
theorem fallback_prbs_priority (f : CsvFile)
    (hp : containsSub "prbs_test".toList (pyLower f.name) = true)
    (_hd : containsSub "data_test".toList (pyLower f.name) = true) :
    fallbackTestType f.name = some TestKind.PRBS ∧
    (read1 f = none → identify_test_type f = some TestKind.PRBS) ∧
    (∀ t, read1 f = some t → t.header.contains "test_type" = false →
      identify_test_type f = some TestKind.PRBS) ∧
    (∀ t, read1 f = some t → t.header.contains "test_type" = true →
      t.cell0 "test_type" = none → identify_test_type f = some TestKind.PRBS) ∧
    (∀ t v, read1 f = some t → t.header.contains "test_type" = true →
      t.cell0 "test_type" = some v → v ≠ some TEST_TYPE_PRBS → v ≠ some TEST_TYPE_DATA →
      identify_test_type f = some TestKind.PRBS) := by
  have hfb : fallbackTestType f.name = some TestKind.PRBS := by
    unfold fallbackTestType
    rw [hp]
    simp
  refine ⟨hfb, fun hr => ?_, fun t ht hc => ?_, fun t ht hc hcell => ?_,
    fun t v ht hc hcell hv1 hv2 => ?_⟩
  · simp [identify_test_type, hr, hfb]
  · have hc' : ¬ ("test_type" ∈ t.header) := by simpa using hc
    simp [identify_test_type, ht, hc', hfb]
  · have hc' : "test_type" ∈ t.header := by simpa using hc
    simp [identify_test_type, ht, hc', hcell, hfb]
  · have hc' : "test_type" ∈ t.header := by simpa using hc
    simp [identify_test_type, ht, hc', hcell, hv1, hv2, hfb]

/-- Witness for C9: an unreadable file whose name carries both markers. -/
theorem fallback_prbs_priority_witness :
    containsSub "prbs_test".toList (pyLower fileBothMarkers.name) = true ∧
    containsSub "data_test".toList (pyLower fileBothMarkers.name) = true ∧
    fallbackTestType fileBothMarkers.name = some TestKind.PRBS ∧
    identify_test_type fileBothMarkers = some TestKind.PRBS := by
  have h := fallback_prbs_priority fileBothMarkers (by decide) (by decide)
  exact ⟨by decide, by decide, h.1, h.2.1 rfl⟩

/-- C10: hostname extraction strips surrounding whitespace; a whitespace-only
`host` value yields the empty string and the file is then excluded from every
bucket. -/
theorem hostname_whitespace_excluded (f : CsvFile) (t : Table) (s : String)
    (ht : read1 f = some t)
    (hcol : t.header.contains "host" = true)
    (hval : t.cell0 "host" = some (some (Value.str s)))
    (hne : s ≠ "") :
    extract_system_hostname f = some (pyStrip s) ∧
    (pyStrip s = "" → ∀ files key b,
      lookupB (group_csvs_by_system_and_firmware files) key = some b →
      f ∉ b.prbs ∧ f ∉ b.data) := by
  have hmem : "host" ∈ t.header := by simpa using hcol
  have hesh : extract_system_hostname f = some (pyStrip s) := by
    simp [extract_system_hostname, ht, hmem, hval, hne, Value.pyStr]
  refine ⟨hesh, fun htrim files key b hb => ?_⟩
  have hc : classifies f = none :=
    classifies_eq_none (Or.inr (Or.inr (Or.inr (by rw [hesh, htrim]))))
  exact excluded_of_classifies_none hc files key b hb

/-- Witness for C10: a whitespace-only hostname file is excluded from the
bucket formed by a well-formed companion file. -/
theorem hostname_whitespace_excluded_witness :
    pyStrip "  " = "" ∧
    fileWs ∉ (Bucket.mk [fileA] []).prbs ∧ fileWs ∉ (Bucket.mk [fileA] []).data := by
  have h0 := hostname_whitespace_excluded fileWs tableWs "  "
    (by decide) (by decide) (by decide) (by decide)
  have h := h0.2 (by decide) [fileA, fileWs] ("h1", "erisc_v1_7_103") ⟨[fileA], []⟩ (by decide)
  exact ⟨by decide, h.1, h.2⟩

/-- C6: the Compiler deduplicates nothing: the compiled row count is the sum
of the row counts of the surviving (readable, non-empty) inputs, and feeding
the same file twice exactly doubles the row count. -/
theorem compile_no_dedup :
    (∀ files : List CsvFile, validTables files ≠ [] →
      ∃ t, compile_test_data files = some t ∧
        t.rows.length = ((validTables files).map fun u => u.rows.length).sum) ∧
    (∀ (A : CsvFile) (ta : Table), A.readFull = some ta → ta.rows ≠ [] →
      ∃ t1 t2, compile_test_data [A] = some t1 ∧ compile_test_data [A, A] = some t2 ∧
        t2.rows.length = 2 * t1.rows.length) := by
  constructor
  · intro files hne
    exact ⟨_, compile_eq_some hne, concatTables_length _⟩
  · intro A ta hA hrows
    have hv1 : validTables [A] = [ta] := by simp [validTables, hA, hrows]
    have hv2 : validTables [A, A] = [ta, ta] := by simp [validTables, hA, hrows]
    refine ⟨concatTables (validTables [A]), concatTables (validTables [A, A]),
      compile_eq_some (by rw [hv1]; simp),
      compile_eq_some (by rw [hv2]; simp), ?_⟩
    rw [concatTables_length, concatTables_length, hv1, hv2]
    simp only [List.map_cons, List.map_nil, List.sum_cons, List.sum_nil]
    omega

/-- Witness for C6 at a concrete one-row file. -/
theorem compile_no_dedup_witness :
    fileA.readFull = some tableA ∧ tableA.rows ≠ [] ∧
    ∃ t1 t2, compile_test_data [fileA] = some t1 ∧
      compile_test_data [fileA, fileA] = some t2 ∧
      t2.rows.length = 2 * t1.rows.length :=
  ⟨rfl, by decide, compile_no_dedup.2 fileA tableA rfl (by decide)⟩

/-- C1 counterexample: with a loaded template that lacks the designated PRBS
raw-data sheet, pasting fails with the error result, yet `generate` still
saves and reports success for the bucket. -/
theorem generate_missing_sheet_counterexample :
    (wbMissingRaw.any fun s => s.1 == SHEET_RAW_PRBS) = false ∧
    (paste_data_to_sheet wbMissingRaw SHEET_RAW_PRBS dfSample).2 = none ∧
    generate_excel_summary envMissingRaw "h1" "erisc_v1_0_0" (some dfSample) none = true :=
  ⟨by decide, by decide, by decide⟩

/-- C1 (amended): a bucket's report succeeds exactly when the template loads
and the save succeeds; a missing designated sheet only skips that paste and
never fails the report. -/
theorem generate_success_iff_template_and_save (env : Env) (hn fw : String)
    (prbsData dataTestData : Option Table) :
    generate_excel_summary env hn fw prbsData dataTestData =
      (env.template.isSome && env.saveOk) := by
  obtain ⟨tmpl, sv⟩ := env
  cases tmpl with
  | none => rfl
  | some wb => rfl

/-- C4: the run exits non-zero exactly on empty input, empty grouping, or a
non-empty filter matching no bucket, and then with zero reports attempted;
otherwise (whatever the per-bucket outcomes) the exit status is zero. -/
theorem main_exit_characterization (env : Env) (files : List CsvFile)
    (systems : Option (List String)) :
    ((main env files systems).exitCode ≠ 0 ↔
      files = [] ∨ group_csvs_by_system_and_firmware files = [] ∨
      (∃ sys, systems = some sys ∧ sys ≠ [] ∧
        (group_csvs_by_system_and_firmware files).filter
          (fun kb : (String × String) × Bucket => sys.contains kb.1.1) = [])) ∧
    ((main env files systems).exitCode ≠ 0 →
      (main env files systems).successCount = 0 ∧ (main env files systems).errorCount = 0) := by
  cases files with
  | nil => simp [main]
  | cons a as =>
    cases hG : group_csvs_by_system_and_firmware (a :: as) with
    | nil => simp [main, hG]
    | cons b bs =>
      cases systems with
      | none =>
        have hm : main env (a :: as) none = runBuckets env (b :: bs) := by
          unfold main
          rw [hG, if_neg (by simp), if_neg (by simp)]
          rfl
        rw [hm]
        refine ⟨⟨fun hx => absurd rfl hx, ?_⟩, fun hx => absurd rfl hx⟩
        rintro (h | h | ⟨sys', hsys', -, -⟩)
        · exact (List.cons_ne_nil a as h).elim
        · exact (List.cons_ne_nil b bs h).elim
        · exact Option.noConfusion hsys'
      | some sys =>
        cases sys with
        | nil =>
          have hm : main env (a :: as) (some []) = runBuckets env (b :: bs) := by
            unfold main
            rw [hG, if_neg (by simp), if_neg (by simp)]
            rfl
          rw [hm]
          refine ⟨⟨fun hx => absurd rfl hx, ?_⟩, fun hx => absurd rfl hx⟩
          rintro (h | h | ⟨sys', hsys', hne', -⟩)
          · exact (List.cons_ne_nil a as h).elim
          · exact (List.cons_ne_nil b bs h).elim
          · exact (hne' (Option.some.inj hsys').symm).elim
        | cons c cs =>
          by_cases hfg : ((b :: bs).filter fun kb : (String × String) × Bucket =>
              (c :: cs).contains kb.1.1) = []
          · have hsel : selectedBuckets (b :: bs) (some (c :: cs)) = none := by
              simp only [selectedBuckets]
              rw [if_neg (by simp), if_pos (show _ = true by rw [hfg]; rfl)]
            have hm : main env (a :: as) (some (c :: cs)) = ⟨1, 0, 0⟩ := by
              unfold main
              rw [hG, if_neg (by simp), if_neg (by simp), hsel]
            rw [hm]
            refine ⟨⟨fun _ => Or.inr (Or.inr ⟨c :: cs, rfl, by simp, hfg⟩),
              fun _ => one_ne_zero⟩, fun _ => ⟨rfl, rfl⟩⟩
          · have hfg' : ¬ (((b :: bs).filter fun kb : (String × String) × Bucket =>
                (c :: cs).contains kb.1.1).isEmpty = true) := by
              simpa using hfg
            have hsel : selectedBuckets (b :: bs) (some (c :: cs)) =
                some ((b :: bs).filter fun kb : (String × String) × Bucket =>
                  (c :: cs).contains kb.1.1) := by
              simp only [selectedBuckets]
              rw [if_neg (by simp), if_neg hfg']
            have hm : main env (a :: as) (some (c :: cs)) =
                runBuckets env ((b :: bs).filter fun kb : (String × String) × Bucket =>
                  (c :: cs).contains kb.1.1) := by
              unfold main
              rw [hG, if_neg (by simp), if_neg (by simp), hsel]
            rw [hm]
            refine ⟨⟨fun hx => absurd rfl hx, ?_⟩, fun hx => absurd rfl hx⟩
            rintro (h | h | ⟨sys', hsys', -, hflt⟩)
            · exact (List.cons_ne_nil a as h).elim
            · exact (List.cons_ne_nil b bs h).elim
            · have hs' : sys' = c :: cs := (Option.some.inj hsys').symm
              subst hs'
              exact (hfg hflt).elim

/-- Witness for C4: empty input exits non-zero with zero tallies. -/
theorem main_exit_characterization_witness :
    (main envNone [] none).exitCode ≠ 0 ∧
    (main envNone [] none).successCount = 0 ∧ (main envNone [] none).errorCount = 0 := by
  have h := main_exit_characterization envNone [] none
  exact ⟨h.1.mpr (Or.inl rfl), h.2 (h.1.mpr (Or.inl rfl))⟩

/-- C5: a missing/null cell of the compiled table is written to the sheet as
an explicit empty cell, never the literal text `nan` or `None`. -/
theorem paste_writes_null_as_empty (wb : Workbook) (name : String) (df : Table)
    (wb2 : Workbook) (rng : Option (Nat × Nat)) (sheet : SheetData)
    (hp : paste_data_to_sheet wb name df = (wb2, rng))
    (hrng : rng.isSome = true)
    (hs : lookupSheet wb2 name = some sheet)
    (i j : Nat) (row : List (Option Value))
    (hrow : df.rows[i]? = some row) (hcell : row[j]? = some none) :
    getCell sheet (i + 1) j = some none ∧
    getCell sheet (i + 1) j ≠ some (some (Value.str "nan")) ∧
    getCell sheet (i + 1) j ≠ some (some (Value.str "None")) := by
  unfold paste_data_to_sheet at hp
  by_cases ha : wb.any (fun s => s.1 == name) = true
  · rw [if_pos ha] at hp
    have hw : wb2 = wb.map fun s => if s.1 == name then (s.1, pastedSheet df) else s :=
      (congrArg Prod.fst hp).symm
    subst hw
    rw [lookupSheet_paste df ha] at hs
    have hsheet : sheet = pastedSheet df := (Option.some.inj hs).symm
    subst hsheet
    have hcellval : getCell (pastedSheet df) (i + 1) j = some none := by
      unfold getCell pastedSheet
      rw [List.getElem?_cons_succ, List.getElem?_map, hrow]
      simp [hcell, writeCellValue]
    exact ⟨hcellval, by rw [hcellval]; simp, by rw [hcellval]; simp⟩
  · rw [if_neg ha] at hp
    have hrn : rng = none := (congrArg Prod.snd hp).symm
    rw [hrn] at hrng
    simp at hrng

/-- Witness for C5 at the concrete one-row table with a null cell. -/
theorem paste_writes_null_as_empty_witness :
    getCell (pastedSheet dfSample) 1 1 = some none ∧
    getCell (pastedSheet dfSample) 1 1 ≠ some (some (Value.str "nan")) ∧
    getCell (pastedSheet dfSample) 1 1 ≠ some (some (Value.str "None")) :=
  paste_writes_null_as_empty wbWithRaw SHEET_RAW_PRBS dfSample wbPasted (some (2, 2))
    (pastedSheet dfSample) (by decide) (by decide) (by decide) 0 1
    [some (Value.int 1), none] (by decide) (by decide)

example : extract_firmware_version "SYS1_erisc_v1_7_103_prbs_test.csv" =
    some "erisc_v1_7_103" := by decide

example : extract_firmware_version "SYS1_fw_v2_0_9.csv" = some "v2_0_9" := by decide

example : identify_test_type fileA = some TestKind.PRBS := by decide

example : (main envMissingRaw [fileA] none).exitCode = 0 := by decide

end BhGlx
